import Mathlib

/-
Verification of the rhs-scraper fetch-extract-cache core.

The definitions below are a shallow embedding of the canonical variant of
the pipeline (src/src/main.go): the Event data model, the per-container
extraction logic of ScrapeEvents' OnHTML handler, the capped document
traversal, the JSON cache encoding/decoding used by saveToCache /
LoadCachedEvents, the ShouldScrape freshness policy, and the
orchestration branch of main (with the force flag of src/src/scraper.go).
External effects (the HTTP fetch, the file system, the user cache
directory) are passed in as explicit values: a fetched page is an
optional list of containers (none = transport/HTTP failure), the cache
file is a value of type CacheFile, and the success of directory/file
creation is a boolean input.
-/

namespace RHS

/-- Event mirrors the Go struct Event of src/src/main.go: title, date,
location, category, description, all strings. -/
structure Event where
  title : String
  date : String
  location : String
  category : String
  description : String
deriving DecidableEq

/-- One repeating event container of the listing document
(".msl_eventlist .event_item"): the text found by each fixed
sub-selector, and the list of texts of the category-link elements
("dd.msl_event_types a"), in document order. -/
structure EventContainer where
  nameText : String
  timeText : String
  locationText : String
  descriptionText : String
  typeLinks : List String
deriving DecidableEq

/-- Go strings.Join: concatenate the elements with the separator between
consecutive elements. -/
def stringsJoin (sep : String) : List String → String
  | [] => ""
  | [s] => s
  | s :: rest => s ++ sep ++ stringsJoin sep rest

/-- Go strings.TrimSpace: drop the whitespace characters from both ends
of the string. -/
def trimSpace (s : String) : String :=
  ⟨((s.data.dropWhile Char.isWhitespace).reverse.dropWhile Char.isWhitespace).reverse⟩

/-- Go strings.ToLower: lower-case every character. -/
def stringsToLower (s : String) : String :=
  ⟨s.data.map Char.toLower⟩

/-- The categories slice built by the ForEach loop of main.go lines
84-90: each link text is trimmed, and kept when it is not
case-insensitively "free" and not empty. -/
def filteredCategories (links : List String) : List String :=
  (links.map trimSpace).filter fun t => stringsToLower t != "free" && t != ""

/-- The category value of main.go lines 81-93: default "uncategorized",
replaced by the comma-joined filtered categories when any remain. -/
def extractCategory (links : List String) : String :=
  let categories := filteredCategories links
  if categories.length > 0 then stringsJoin ", " categories
  else "uncategorized"

/-- The body of the OnHTML handler of main.go lines 52-107 for one
container: trim the title and skip the container (produce none) when it
is empty; otherwise build the Event from the trimmed fields and the
extracted category. -/
def extractEvent (c : EventContainer) : Option Event :=
  let title := trimSpace c.nameText
  if title = "" then none
  else
    let date := trimSpace c.timeText
    let location := trimSpace c.locationText
    let description := trimSpace c.descriptionText
    let category := extractCategory c.typeLinks
    some ⟨title, date, location, category, description⟩

/-- The numEvents validation of main.go lines 35-39 (also scraper.go
lines 46-50): below 2 becomes 2, above 25 becomes 25. -/
def clampNumEvents (n : Int) : Nat :=
  if n < 2 then 2
  else if n > 25 then 25
  else n.toNat

/-- The traversal of the event containers in document order: once
eventCount reaches numEvents the request is aborted (main.go lines
53-57), so the remaining containers are not processed; otherwise a
container either yields no record (empty title) or appends one record
and increments the count. -/
def scrapeLoop (numEvents : Nat) : List EventContainer → List Event → Nat → List Event
  | [], events, _ => events
  | c :: rest, events, eventCount =>
    if eventCount ≥ numEvents then events
    else
      match extractEvent c with
      | none => scrapeLoop numEvents rest events eventCount
      | some ev => scrapeLoop numEvents rest (events ++ [ev]) (eventCount + 1)

/-- ScrapeEvents of main.go lines 33-143, as a function of the fetched
document: clamp numEvents, then traverse the containers accumulating
valid records. -/
def ScrapeEvents (numEvents : Int) (doc : List EventContainer) : List Event :=
  scrapeLoop (clampNumEvents numEvents) doc [] 0

/-- A parsed JSON value, as far as the cache format needs: strings,
numbers (standing for the RFC3339 last_scraped timestamp, kept as an
integer), arrays and objects. -/
inductive JsonVal where
  | str (s : String)
  | num (n : Int)
  | arr (elems : List JsonVal)
  | obj (fields : List (String × JsonVal))

/-- CachedData mirrors the Go struct of main.go lines 26-29: the
last_scraped timestamp (an integer count of nanoseconds, the unit of
time.Duration) and the events. -/
structure CachedData where
  lastScraped : Int
  events : List Event
deriving DecidableEq

/-- encoding/json marshalling of an Event with its field tags
(main.go lines 17-23). -/
def encodeEvent (e : Event) : JsonVal :=
  .obj [("title", .str e.title), ("date", .str e.date),
        ("location", .str e.location), ("category", .str e.category),
        ("description", .str e.description)]

/-- encoding/json marshalling of CachedData with its field tags
(main.go lines 26-29). -/
def encodeCachedData (d : CachedData) : JsonVal :=
  .obj [("last_scraped", .num d.lastScraped),
        ("events", .arr (d.events.map encodeEvent))]

/-- encoding/json unmarshalling of a string field: a missing key leaves
the zero value "", a present key must hold a string. -/
def getStrField (fields : List (String × JsonVal)) (key : String) : Option String :=
  match fields.lookup key with
  | none => some ""
  | some (.str s) => some s
  | some _ => none

/-- encoding/json unmarshalling of the timestamp field: a missing key
leaves the zero value, a present key must hold a timestamp. -/
def getNumField (fields : List (String × JsonVal)) (key : String) : Option Int :=
  match fields.lookup key with
  | none => some 0
  | some (.num n) => some n
  | some _ => none

/-- encoding/json unmarshalling of an array field: a missing key leaves
the zero value (nil slice), a present key must hold an array. -/
def getArrField (fields : List (String × JsonVal)) (key : String) : Option (List JsonVal) :=
  match fields.lookup key with
  | none => some []
  | some (.arr l) => some l
  | some _ => none

/-- encoding/json unmarshalling of one Event: the value must be an
object and each present field must have the right type. -/
def decodeEvent (j : JsonVal) : Option Event :=
  match j with
  | .obj fields => do
    let title ← getStrField fields "title"
    let date ← getStrField fields "date"
    let location ← getStrField fields "location"
    let category ← getStrField fields "category"
    let description ← getStrField fields "description"
    pure ⟨title, date, location, category, description⟩
  | _ => none

/-- encoding/json unmarshalling of a JSON array into a slice of Events,
element by element in order. -/
def decodeEvents : List JsonVal → Option (List Event)
  | [] => some []
  | j :: rest => do
    let e ← decodeEvent j
    let es ← decodeEvents rest
    pure (e :: es)

/-- encoding/json unmarshalling of CachedData, as decoder.Decode uses it
in ShouldScrape and LoadCachedEvents. -/
def decodeCachedData (j : JsonVal) : Option CachedData :=
  match j with
  | .obj fields => do
    let lastScraped ← getNumField fields "last_scraped"
    let eventsArr ← getArrField fields "events"
    let events ← decodeEvents eventsArr
    pure ⟨lastScraped, events⟩
  | _ => none

/-- The state of the events.json cache file: absent (os.Open fails),
malformed (present but not parseable as JSON, so decoder.Decode fails),
or holding a parsed JSON value. -/
inductive CacheFile where
  | absent
  | malformed
  | json (content : JsonVal)

/-- The timeLimit variable of main.go line 198. -/
def timeLimit : Int := 12

/-- time.Hour in nanoseconds, the unit of time.Duration. -/
def nsPerHour : Int := 3600000000000

/-- ShouldScrape of main.go lines 177-207 as a function of the current
time and the cache file: true when the file cannot be opened or decoded;
otherwise false exactly when time.Since(LastScraped) = now - lastScraped
is below timeLimit hours. -/
def ShouldScrape (now : Int) (file : CacheFile) : Bool :=
  match file with
  | .absent => true
  | .malformed => true
  | .json j =>
    match decodeCachedData j with
    | none => true
    | some cachedData =>
      if now - cachedData.lastScraped < timeLimit * nsPerHour then false
      else true

/-- The two error cases of LoadCachedEvents (main.go lines 211-229):
the open error and the decode error. -/
inductive LoadError where
  | openError
  | decodeError
deriving DecidableEq

/-- LoadCachedEvents of main.go lines 211-229: open the cache file,
decode it, and return the Events field. -/
def LoadCachedEvents (file : CacheFile) : Except LoadError (List Event) :=
  match file with
  | .absent => .error .openError
  | .malformed => .error .decodeError
  | .json j =>
    match decodeCachedData j with
    | none => .error .decodeError
    | some cachedData => .ok cachedData.events

/-- The environment getCacheDir (main.go lines 234-257) runs in:
whether os.UserCacheDir succeeds and whether os.Mkdir succeeds when the
directory is missing. -/
inductive DirStatus where
  | ok
  | userCacheDirError
  | mkdirError
deriving DecidableEq

/-- What one call of saveToCache (main.go lines 148-173) does:
getCacheDir calls log.Fatalf when os.UserCacheDir or os.Mkdir fails, so
those cases terminate the process; with the directory in place, a failed
os.Create is returned as an error, a failed Encode likewise, and
otherwise the data is saved. -/
inductive SaveOutcome where
  | saved
  | createFailed
  | encodeFailed
  | fatalExit
deriving DecidableEq

/-- saveToCache of main.go lines 148-173, over the explicit environment:
the value of getCacheDir's environment and the success of os.Create and
of Encoder.Encode. -/
def saveToCache (dir : DirStatus) (createOk encodeOk : Bool) : SaveOutcome :=
  match dir with
  | .userCacheDirError => .fatalExit
  | .mkdirError => .fatalExit
  | .ok =>
    if createOk then
      if encodeOk then .saved else .encodeFailed
    else .createFailed

/-- The cache file left behind by one saveToCache call that reached
os.Create: a successful create and encode fully replaces the file with
the encoded CachedData (timestamped now); a failed create leaves the old
file; a create followed by a failed encode leaves a truncated,
unparseable file. -/
def saveFile (now : Int) (events : List Event) (createOk encodeOk : Bool)
    (old : CacheFile) : CacheFile :=
  if createOk then
    if encodeOk then .json (encodeCachedData ⟨now, events⟩)
    else .malformed
  else old

/-- The outcome of one ScrapeEvents call: the returned events, the
wrapped visit error of line 132, the wrapped save error of line 138, or
a process exit from inside getCacheDir. -/
inductive RunOutcome where
  | ok (events : List Event)
  | fetchError
  | saveError
  | processExit
deriving DecidableEq

/-- One full run of ScrapeEvents (main.go lines 33-143) with its side
effect on the cache file: a failed Visit (page = none) returns the
fetch error with the events discarded and the cache untouched;
otherwise the extracted events are saved, and a save failure is
returned as the call's own error. -/
def ScrapeEventsRun (numEvents : Int) (now : Int)
    (page : Option (List EventContainer)) (dir : DirStatus)
    (createOk encodeOk : Bool) (old : CacheFile) : RunOutcome × CacheFile :=
  match page with
  | none => (.fetchError, old)
  | some doc =>
    let events := ScrapeEvents numEvents doc
    match saveToCache dir createOk encodeOk with
    | .fatalExit => (.processExit, old)
    | .saved => (.ok events, saveFile now events createOk encodeOk old)
    | .createFailed => (.saveError, saveFile now events createOk encodeOk old)
    | .encodeFailed => (.saveError, saveFile now events createOk encodeOk old)

/-- What the orchestrator hands to its caller: the events, a failed
scrape, a failed cache load, or a process exit from the core. -/
inductive GetEventsResult where
  | events (evs : List Event)
  | scrapeFailed
  | loadFailed
  | exited
deriving DecidableEq

/-- Collapse a fetch run outcome into the orchestrator's result. -/
def toGetEventsResult : RunOutcome → GetEventsResult
  | .ok evs => .events evs
  | .fetchError => .scrapeFailed
  | .saveError => .scrapeFailed
  | .processExit => .exited

/-- The orchestration branch shared by main.go main (lines 270-287),
scraper.go main (line 53) and the TUI (app.go): when the force flag is
set or ShouldScrape reports a stale cache, run the Fetcher (whose
outcome and cache side effect are the fetch argument) and return its
result; otherwise return what LoadCachedEvents reads from the cache,
with no fetch. The interactive re-prompt of scraper.go's else branch
belongs to the excluded CLI/UI layer. -/
def getEvents (forceRefresh : Bool) (now : Int) (cache : CacheFile)
    (fetch : RunOutcome × CacheFile) : GetEventsResult × CacheFile :=
  if forceRefresh || ShouldScrape now cache then
    (toGetEventsResult fetch.1, fetch.2)
  else
    match LoadCachedEvents cache with
    | .ok evs => (.events evs, cache)
    | .error _ => (.loadFailed, cache)

/-- A container whose only populated field is the title, for concrete
evaluations. -/
def titleOnly (t : String) : EventContainer :=
  ⟨t, "", "", "", []⟩

/-- A three-container document in which every title is valid. -/
def threeValid : List EventContainer :=
  [titleOnly "Karaoke Night", titleOnly "Film Screening", titleOnly "Quiz"]

/-- A container with a whitespace-only title, which extraction skips. -/
def blankTitle : EventContainer :=
  ⟨"  ", "dd", "ll", "xx", ["Music"]⟩

/-- A sample event for concrete cache scenarios. -/
def sampleEvent : Event :=
  ⟨"Karaoke Night", "Fri 20 Sep", "Medicine", "Social", "Sing"⟩

/-- A string with a nonempty left part stays nonempty under append. -/
theorem append_ne_empty (a b : String) (h : a ≠ "") : a ++ b ≠ "" := by
  intro hab
  apply h
  have hlen := congrArg String.length hab
  rw [String.length_append] at hlen
  have ha : a.length = 0 := by
    have : String.length "" = 0 := rfl
    omega
  cases a with
  | mk data =>
    cases data with
    | nil => rfl
    | cons c cs => simp [String.length] at ha

/-- Joining a list whose head is nonempty yields a nonempty string. -/
theorem stringsJoin_ne_empty (sep : String) (t : String) (ts : List String)
    (h : t ≠ "") : stringsJoin sep (t :: ts) ≠ "" := by
  cases ts with
  | nil => simpa [stringsJoin] using h
  | cons u us =>
    have h2 := append_ne_empty (t ++ sep) (stringsJoin sep (u :: us))
      (append_ne_empty t sep h)
    simpa [stringsJoin] using h2

/-- Every category kept by the filter is trimmed, not the spam token
(case-insensitively) and not empty. -/
theorem mem_filteredCategories (links : List String) (t : String)
    (h : t ∈ filteredCategories links) : stringsToLower t ≠ "free" ∧ t ≠ "" := by
  have := (List.mem_filter.mp h).2
  rw [Bool.and_eq_true, bne_iff_ne, bne_iff_ne] at this
  exact this

/-- A container is extracted to some event exactly when its trimmed
title is nonempty, and then the event is built from the trimmed fields
and the extracted category. -/
theorem extractEvent_eq (c : EventContainer) (h : trimSpace c.nameText ≠ "") :
    extractEvent c = some ⟨trimSpace c.nameText, trimSpace c.timeText,
      trimSpace c.locationText, extractCategory c.typeLinks,
      trimSpace c.descriptionText⟩ := by
  simp [extractEvent, h]

/-- An extracted event never has an empty title. -/
theorem extractEvent_title_ne (c : EventContainer) (ev : Event)
    (h : extractEvent c = some ev) : ev.title ≠ "" := by
  by_cases ht : trimSpace c.nameText = ""
  · simp [extractEvent, ht] at h
  · rw [extractEvent_eq c ht] at h
    cases h
    exact ht

/-- The traversal started from any accumulator (whose length is the
running count) appends exactly the first remaining valid records. -/
theorem scrapeLoop_spec (n : Nat) (doc : List EventContainer) :
    ∀ acc : List Event,
      scrapeLoop n doc acc acc.length =
        acc ++ (doc.filterMap extractEvent).take (n - acc.length) := by
  induction doc with
  | nil => intro acc; simp [scrapeLoop]
  | cons c rest ih =>
    intro acc
    by_cases h : acc.length ≥ n
    · have hz : n - acc.length = 0 := by omega
      simp [scrapeLoop, h, hz]
    · cases hx : extractEvent c with
      | none => simp [scrapeLoop, h, hx, ih acc]
      | some ev =>
        have hlen : (acc ++ [ev]).length = acc.length + 1 := by simp
        have hrec := ih (acc ++ [ev])
        rw [hlen] at hrec
        have hn : n - acc.length = (n - (acc.length + 1)) + 1 := by omega
        simp only [scrapeLoop, h, if_false, hx, List.filterMap_cons]
        rw [hrec, hn, List.take_succ_cons, List.append_assoc, List.singleton_append]

/-- ScrapeEvents returns the first clampNumEvents valid records of the
document, in document order. -/
theorem ScrapeEvents_eq_take (n : Int) (doc : List EventContainer) :
    ScrapeEvents n doc = (doc.filterMap extractEvent).take (clampNumEvents n) := by
  have h := scrapeLoop_spec (clampNumEvents n) doc []
  simpa [ScrapeEvents] using h

/-- Clamping an already in-range value does nothing. -/
theorem clampNumEvents_of_mem (n : Int) (h2 : 2 ≤ n) (h25 : n ≤ 25) :
    clampNumEvents n = n.toNat := by
  have hlt : ¬ n < 2 := by omega
  have hgt : ¬ n > 25 := by omega
  simp [clampNumEvents, hlt, hgt]

/-- Decoding an encoded Event gives the Event back. -/
theorem decodeEvent_encodeEvent (e : Event) : decodeEvent (encodeEvent e) = some e := by
  rfl

/-- Decoding an encoded slice of Events gives the slice back. -/
theorem decodeEvents_encode (l : List Event) :
    decodeEvents (l.map encodeEvent) = some l := by
  induction l with
  | nil => rfl
  | cons e rest ih => simp [decodeEvents, decodeEvent_encodeEvent, ih]

/-- Decoding an encoded CachedData gives the CachedData back. -/
theorem decodeCachedData_encodeCachedData (d : CachedData) :
    decodeCachedData (encodeCachedData d) = some d := by
  obtain ⟨t, evs⟩ := d
  show (decodeEvents (evs.map encodeEvent)).bind
    (fun es => some (⟨t, es⟩ : CachedData)) = some ⟨t, evs⟩
  rw [decodeEvents_encode]
  rfl

/-- Claim C1: ShouldScrape returns true when the cache file is absent or
undecodable; with a decodable cache it returns false when the elapsed
time now - last_scraped is strictly below the 12-hour limit, and true
when the elapsed time is at or above the limit (so exactly 12 hours
counts as stale). -/
theorem ShouldScrape_freshness (now : Int) (j : JsonVal) (d : CachedData) :
    ShouldScrape now CacheFile.absent = true ∧
    ShouldScrape now CacheFile.malformed = true ∧
    (decodeCachedData j = none → ShouldScrape now (CacheFile.json j) = true) ∧
    (decodeCachedData j = some d →
      ((now - d.lastScraped < timeLimit * nsPerHour →
          ShouldScrape now (CacheFile.json j) = false) ∧
       (timeLimit * nsPerHour ≤ now - d.lastScraped →
          ShouldScrape now (CacheFile.json j) = true))) := by
  refine ⟨rfl, rfl, ?_, ?_⟩
  · intro h; simp [ShouldScrape, h]
  · intro h
    constructor
    · intro hlt; simp [ShouldScrape, h, hlt]
    · intro hge
      have hnlt : ¬ now - d.lastScraped < timeLimit * nsPerHour := by omega
      simp [ShouldScrape, h, hnlt]

/-- Closed instances of the freshness policy: a one-hour-old cache is
fresh, a cache exactly 12 hours old is stale, and an undecodable cache
forces a scrape. -/
theorem ShouldScrape_freshness_witness :
    ShouldScrape 0 (CacheFile.json (encodeCachedData ⟨-3600000000000, []⟩)) = false ∧
    ShouldScrape 43200000000000 (CacheFile.json (encodeCachedData ⟨0, []⟩)) = true ∧
    ShouldScrape 0 (CacheFile.json (JsonVal.str "truncated")) = true := by
  refine ⟨?_, ?_, ?_⟩
  · exact ((ShouldScrape_freshness 0 _ ⟨-3600000000000, []⟩).2.2.2
      (decodeCachedData_encodeCachedData _)).1 (by norm_num [timeLimit, nsPerHour])
  · exact ((ShouldScrape_freshness 43200000000000 _ ⟨0, []⟩).2.2.2
      (decodeCachedData_encodeCachedData _)).2 (by norm_num [timeLimit, nsPerHour])
  · exact (ShouldScrape_freshness 0 (JsonVal.str "truncated") ⟨0, []⟩).2.2.1 rfl

/-- Claim C2: the extractor keeps, in document order, exactly the
trimmed category-link texts that are neither empty nor
case-insensitively the spam token "free"; the category is their
comma-join when any remain and the sentinel "uncategorized" otherwise;
consequently no kept entry is the spam token and the category string is
never empty. -/
theorem extractCategory_spec (links : List String) :
    (∀ t ∈ filteredCategories links, stringsToLower t ≠ "free" ∧ t ≠ "") ∧
    List.Sublist (filteredCategories links) (links.map trimSpace) ∧
    (filteredCategories links ≠ [] →
      extractCategory links = stringsJoin ", " (filteredCategories links)) ∧
    (filteredCategories links = [] → extractCategory links = "uncategorized") ∧
    extractCategory links ≠ "" := by
  refine ⟨fun t ht => mem_filteredCategories links t ht, List.filter_sublist _, ?_, ?_, ?_⟩
  · intro h
    have hp : 0 < (filteredCategories links).length := List.length_pos.mpr h
    simp [extractCategory, hp]
  · intro h; simp [extractCategory, h]
  · cases hf : filteredCategories links with
    | nil =>
      simp only [extractCategory, hf]
      decide
    | cons t ts =>
      have ht : t ≠ "" :=
        (mem_filteredCategories links t (hf ▸ List.mem_cons_self t ts)).2
      simp only [extractCategory, hf, List.length_cons]
      have hp : 0 < ts.length + 1 := Nat.succ_pos _
      rw [if_pos hp]
      exact stringsJoin_ne_empty ", " t ts ht

/-- The two category scenarios of the spec: the spam token is dropped
next to a real category, and a spam-only list falls back to the
sentinel. -/
theorem extractCategory_spec_witness :
    extractCategory ["Free", "Music"] = "Music" ∧
    extractCategory ["free"] = "uncategorized" ∧
    extractCategory [] = "uncategorized" := by
  refine ⟨by decide, by decide, by decide⟩

/-- Claim C3: for every maxEvents in the caller-clamped range [2, 25]
and every document, the fetch returns exactly the first maxEvents valid
(non-empty-title) records in document order, hence at most maxEvents
records, and containers after the cap do not affect the result
(the traversal is short-circuited). -/
theorem ScrapeEvents_cap (n : Int) (h2 : 2 ≤ n) (h25 : n ≤ 25) :
    (∀ doc, ScrapeEvents n doc = (doc.filterMap extractEvent).take n.toNat) ∧
    (∀ doc, (ScrapeEvents n doc).length ≤ n.toNat) ∧
    (∀ doc extra, n.toNat ≤ (doc.filterMap extractEvent).length →
      ScrapeEvents n (doc ++ extra) = ScrapeEvents n doc) := by
  have hc := clampNumEvents_of_mem n h2 h25
  refine ⟨?_, ?_, ?_⟩
  · intro doc; rw [ScrapeEvents_eq_take, hc]
  · intro doc
    rw [ScrapeEvents_eq_take, hc]
    exact List.length_take_le _ _
  · intro doc extra h
    rw [ScrapeEvents_eq_take, ScrapeEvents_eq_take, hc, List.filterMap_append,
      List.take_append_of_le_length h]

/-- The cap theorem applied at maxEvents = 3 on a concrete document. -/
theorem ScrapeEvents_cap_witness :
    (ScrapeEvents 3 threeValid).length ≤ (3 : Int).toNat :=
  (ScrapeEvents_cap 3 (by norm_num) (by norm_num)).2.1 threeValid

/-- Claim C4: a container whose trimmed title is empty produces no
record, its presence leaves the whole result unchanged, and no record
with an empty title is ever in the result. -/
theorem emptyTitle_no_record (c : EventContainer) (h : trimSpace c.nameText = "") :
    extractEvent c = none ∧
    (∀ (n : Int) (pre post : List EventContainer),
      ScrapeEvents n (pre ++ c :: post) = ScrapeEvents n (pre ++ post)) ∧
    (∀ (n : Int) (doc : List EventContainer) (ev : Event),
      ev ∈ ScrapeEvents n doc → ev.title ≠ "") := by
  have hnone : extractEvent c = none := by simp [extractEvent, h]
  refine ⟨hnone, ?_, ?_⟩
  · intro n pre post
    rw [ScrapeEvents_eq_take, ScrapeEvents_eq_take, List.filterMap_append,
      List.filterMap_append, List.filterMap_cons, hnone]
  · intro n doc ev hev
    rw [ScrapeEvents_eq_take] at hev
    obtain ⟨a, _, ha⟩ := List.mem_filterMap.mp (List.mem_of_mem_take hev)
    exact extractEvent_title_ne a ev ha

/-- A whitespace-titled container dropped from a concrete document. -/
theorem emptyTitle_no_record_witness :
    ScrapeEvents 5 ([] ++ blankTitle :: [titleOnly "Quiz"]) =
      ScrapeEvents 5 ([] ++ [titleOnly "Quiz"]) :=
  (emptyTitle_no_record blankTitle (by decide)).2.1 5 [] [titleOnly "Quiz"]

/-- Claim C5: when the network fetch fails, ScrapeEvents returns the
fetch error, no partial results, and the cache file exactly as it was:
last_scraped is refreshed only by a successful fetch. -/
theorem fetchFailure_no_cache_write (n now : Int) (dir : DirStatus)
    (createOk encodeOk : Bool) (old : CacheFile) :
    ScrapeEventsRun n now none dir createOk encodeOk old = (RunOutcome.fetchError, old) :=
  rfl

/-- Claim C6: saving a slice of events and immediately loading the cache
returns the same slice, field by field and in order, whatever the
last_scraped timestamp written alongside. -/
theorem save_load_roundtrip (now : Int) (events : List Event) (old : CacheFile) :
    LoadCachedEvents (saveFile now events true true old) = Except.ok events := by
  show LoadCachedEvents (CacheFile.json (encodeCachedData ⟨now, events⟩)) = Except.ok events
  simp [LoadCachedEvents, decodeCachedData_encodeCachedData]

/-- The Fetcher handed the unclamped value 0 returns 2 records from a
three-valid-container document, not 0: ScrapeEvents re-clamps its
argument itself, refuting the claim that the Fetcher does not re-clamp. -/
theorem fetcher_reclamp_cex :
    (ScrapeEvents 0 threeValid).length = 2 ∧ 0 < (ScrapeEvents 0 threeValid).length := by
  refine ⟨by decide, by decide⟩

/-- Claim C7 (amended): the clamp of maxEvents to [2, 25] (0 and 1
become 2, 1000 becomes 25) is performed inside the Fetcher itself, and
the Fetcher never returns more than the clamped value. -/
theorem fetcher_clamps_internally (n : Int) (doc : List EventContainer) :
    (ScrapeEvents n doc).length ≤ clampNumEvents n ∧
    2 ≤ clampNumEvents n ∧ clampNumEvents n ≤ 25 ∧
    clampNumEvents 0 = 2 ∧ clampNumEvents 1 = 2 ∧ clampNumEvents 1000 = 25 := by
  refine ⟨?_, ?_, ?_, rfl, rfl, rfl⟩
  · rw [ScrapeEvents_eq_take]
    exact List.length_take_le _ _
  · by_cases h1 : n < 2
    · simp [clampNumEvents, h1]
    · by_cases h2 : n > 25
      · simp [clampNumEvents, h1, h2]
      · simp [clampNumEvents, h1, h2]
        omega
  · by_cases h1 : n < 2
    · simp [clampNumEvents, h1]
    · by_cases h2 : n > 25
      · simp [clampNumEvents, h1, h2]
      · simp [clampNumEvents, h1, h2]
        omega

/-- A directory-creation failure during the cache write of a successful
fetch terminates the process from inside getCacheDir (log.Fatalf)
instead of being propagated, refuting the claim that the core never
terminates the process itself. -/
theorem core_fatal_exit_cex :
    ScrapeEventsRun 10 0 (some []) DirStatus.mkdirError true true CacheFile.absent =
      (RunOutcome.processExit, CacheFile.absent) :=
  rfl

/-- Claim C8 (amended): with the cache directory in place, a failed
file creation or encode is propagated as the fetch's own error and the
fetch never claims success; but a failed directory resolution or
creation terminates the process instead of being propagated. -/
theorem saveFailure_propagation (n now : Int) (doc : List EventContainer)
    (createOk encodeOk : Bool) (old : CacheFile) :
    ((ScrapeEventsRun n now (some doc) DirStatus.ok createOk encodeOk old).1 =
        RunOutcome.ok (ScrapeEvents n doc) ↔ (createOk = true ∧ encodeOk = true)) ∧
    ((ScrapeEventsRun n now (some doc) DirStatus.ok createOk encodeOk old).1 =
        RunOutcome.saveError ↔ ¬(createOk = true ∧ encodeOk = true)) ∧
    (∀ dir : DirStatus,
      (ScrapeEventsRun n now (some doc) dir createOk encodeOk old).1 =
        RunOutcome.processExit ↔ dir ≠ DirStatus.ok) := by
  refine ⟨?_, ?_, ?_⟩
  · cases createOk <;> cases encodeOk <;> simp [ScrapeEventsRun, saveToCache]
  · cases createOk <;> cases encodeOk <;> simp [ScrapeEventsRun, saveToCache]
  · intro dir
    cases dir <;> cases createOk <;> cases encodeOk <;> simp [ScrapeEventsRun, saveToCache]

/-- Claim C9: when the force flag is set or the cache is stale the
orchestrator returns the Fetcher's result (whose caching is the
Fetcher's own side effect); otherwise it returns what LoadCachedEvents
reads, and its result does not depend on the fetch at all (no network
request is issued). -/
theorem getEvents_policy (force : Bool) (now : Int) (cache : CacheFile)
    (fetch fetchOther : RunOutcome × CacheFile) :
    ((force || ShouldScrape now cache) = true →
      getEvents force now cache fetch = (toGetEventsResult fetch.1, fetch.2)) ∧
    ((force || ShouldScrape now cache) = false →
      (getEvents force now cache fetch = getEvents force now cache fetchOther ∧
       ∀ evs, LoadCachedEvents cache = Except.ok evs →
         getEvents force now cache fetch = (GetEventsResult.events evs, cache))) := by
  constructor
  · intro h; simp [getEvents, h]
  · intro h
    constructor
    · simp [getEvents, h]
    · intro evs hl; simp [getEvents, h, hl]

/-- The spec scenario: a one-hour-old cache and no force flag return
the cached events even when any attempted fetch would have failed. -/
theorem getEvents_policy_witness :
    getEvents false 0 (CacheFile.json (encodeCachedData ⟨-3600000000000, [sampleEvent]⟩))
        (RunOutcome.fetchError, CacheFile.absent) =
      (GetEventsResult.events [sampleEvent],
       CacheFile.json (encodeCachedData ⟨-3600000000000, [sampleEvent]⟩)) := by
  have h := (getEvents_policy false 0
    (CacheFile.json (encodeCachedData ⟨-3600000000000, [sampleEvent]⟩))
    (RunOutcome.fetchError, CacheFile.absent)
    (RunOutcome.fetchError, CacheFile.absent)).2
  exact (h rfl).2 [sampleEvent]
    (by simp [LoadCachedEvents, decodeCachedData_encodeCachedData])

/-- Claim C10: a readable, well-formed cache whose last_scraped lies in
the future yields a negative elapsed duration, below the 12-hour
threshold, so ShouldScrape treats the cache as fresh. -/
theorem future_timestamp_fresh (now : Int) (j : JsonVal) (d : CachedData)
    (hdec : decodeCachedData j = some d) (hfut : now < d.lastScraped) :
    ShouldScrape now (CacheFile.json j) = false := by
  have hpos : (0 : Int) < timeLimit * nsPerHour := by norm_num [timeLimit, nsPerHour]
  have hlt : now - d.lastScraped < timeLimit * nsPerHour := by omega
  simp [ShouldScrape, hdec, hlt]

/-- A cache stamped 5 nanoseconds into the future is treated as fresh. -/
theorem future_timestamp_fresh_witness :
    ShouldScrape 0 (CacheFile.json (encodeCachedData ⟨5, []⟩)) = false :=
  future_timestamp_fresh 0 _ ⟨5, []⟩ (decodeCachedData_encodeCachedData _) (by norm_num)

end RHS
